import Mathlib

/-!
Verification of the drowsiness / yawn detection core of `src/main.py`.

The per-frame detection loop (`main`, src/main.py lines 343-587) is embedded
shallowly: timestamps and metric values are rationals, each camera frame
becomes an explicit `Input`, and the mutable loop variables
(`eye_closed_start`, `yawn_start`, `is_drowsy`, `is_yawning`,
`last_alert_time`) become explicit state threaded through a step function.
The named-pipe writer (`try_connect_pipe` / `send_event`, lines 240-264) is
embedded with the outcomes of the two OS calls (`os.open`, `os.write`)
supplied as explicit `Except` parameters, so that the Python exception flow
is visible in the result type.  The shutdown paths of `main` and of the
`__main__` guard (lines 579-597) are embedded as a function from the way the
sampling loop ended to the cleanup actions that actually run.
-/

/-- `EAR_THRESHOLD = 0.22`, src/main.py line 57. -/
def EAR_THRESHOLD : ℚ := mkRat 22 100

/-- `MAR_THRESHOLD = 0.6`, src/main.py line 58. -/
def MAR_THRESHOLD : ℚ := mkRat 6 10

/-- `BLINK_SCORE_THRESHOLD = 0.45`, src/main.py line 59. -/
def BLINK_SCORE_THRESHOLD : ℚ := mkRat 45 100

/-- `JAW_OPEN_SCORE_THRESHOLD = 0.35`, src/main.py line 60. -/
def JAW_OPEN_SCORE_THRESHOLD : ℚ := mkRat 35 100

/-- `DROWSY_TIME = 2.0` seconds, src/main.py line 61. -/
def DROWSY_TIME : ℚ := 2

/-- `YAWN_TIME = 1.0` seconds, src/main.py line 62. -/
def YAWN_TIME : ℚ := 1

/-- `ALERT_COOLDOWN = 3.0` seconds, src/main.py line 63. -/
def ALERT_COOLDOWN : ℚ := 3

/-- One sampling cycle of the loop.  `facePresent` is whether
`result.face_landmarks` is nonempty (line 357-359); `ear`, `mar`, `blink`,
`jawOpen` are the values `current_ear`, `current_mar`, `blink_score`,
`jaw_open_score` computed for this frame (lines 368-378; they are only read
in the same cycle they are computed in, so they are inputs rather than
state); `now` is the `time.time()` read at line 441 and `alertNow` the
re-read at line 551. -/
structure Input where
  facePresent : Bool
  ear : ℚ
  mar : ℚ
  blink : ℚ
  jawOpen : ℚ
  now : ℚ
  alertNow : ℚ

/-- `eye_closed_now`, src/main.py lines 434-436:
`faces and ((current_ear > 0 and current_ear < EAR_THRESHOLD) or
(blink_score >= BLINK_SCORE_THRESHOLD))`. -/
def eye_closed_now (inp : Input) : Bool :=
  inp.facePresent &&
    ((decide (0 < inp.ear) && decide (inp.ear < EAR_THRESHOLD)) ||
      decide (BLINK_SCORE_THRESHOLD ≤ inp.blink))

/-- `mouth_open_now`, src/main.py lines 437-439:
`faces and ((current_mar > MAR_THRESHOLD) or
(jaw_open_score >= JAW_OPEN_SCORE_THRESHOLD))`. -/
def mouth_open_now (inp : Input) : Bool :=
  inp.facePresent &&
    (decide (MAR_THRESHOLD < inp.mar) ||
      decide (JAW_OPEN_SCORE_THRESHOLD ≤ inp.jawOpen))

/-- State of one debounced signal: `start` is `eye_closed_start` (resp.
`yawn_start`), `confirmed` is `is_drowsy` (resp. `is_yawning`). -/
structure SigState where
  start : Option ℚ
  confirmed : Bool
deriving DecidableEq

/-- The reset state: `start = None`, flag `False`. -/
def idleSig : SigState := ⟨none, false⟩

/-- One signal's update per cycle, src/main.py lines 443-461 (eye) and
463-474 (mouth): if the combined condition holds, either record the start
time, or — once `now - start >= sustain` — emit an event exactly when the
confirmed flag was not yet set and set it; otherwise hard-reset to idle.
Returns the new state and whether an event was sent this cycle. -/
def sigStep (sustain : ℚ) (cond : Bool) (now : ℚ) (s : SigState) :
    SigState × Bool :=
  if cond then
    match s.start with
    | none => (⟨some now, s.confirmed⟩, false)
    | some t0 =>
      if sustain ≤ now - t0 then (⟨some t0, true⟩, !s.confirmed)
      else (⟨some t0, s.confirmed⟩, false)
  else (idleSig, false)

/-- Iterate `sigStep` over a list of (condition, timestamp) cycles,
collecting the per-cycle event flags. -/
def runSig (sustain : ℚ) : SigState → List (Bool × ℚ) → SigState × List Bool
  | s, [] => (s, [])
  | s, c :: rest =>
    let p := sigStep sustain c.1 c.2 s
    let q := runSig sustain p.1 rest
    (q.1, p.2 :: q.2)

/-- What one cycle of the main loop emits: a `DROWSY` event (line 452), a
`YAWN` event (line 470), and whether the alert sound fired (lines 560-562). -/
structure CycleOut where
  drowsy : Bool
  yawn : Bool
  alert : Bool
deriving DecidableEq

/-- The mutable state of the main loop that survives across cycles. -/
structure LoopState where
  eye : SigState
  yawn : SigState
  lastAlert : ℚ
deriving DecidableEq

/-- Initial state at loop entry: lines 284-288 (`eye_closed_start = None`,
`yawn_start = None`, `last_alert_time = 0`, flags `False`). -/
def initState : LoopState := ⟨idleSig, idleSig, 0⟩

/-- The alert gate, src/main.py lines 560-562:
`if current_time - last_alert_time > ALERT_COOLDOWN: play; last = now`.
Returns whether the sound fired and the new `last_alert_time`. -/
def should_alert (now last : ℚ) : Bool × ℚ :=
  if ALERT_COOLDOWN < now - last then (true, now) else (false, last)

/-- One full cycle of the main loop body, src/main.py lines 418-474 and
551-563: on face loss both signal states are reset (lines 418-423); then the
two debounce updates run with the combined conditions; finally, while either
flag is set, the cooldown-gated alert runs on the re-read clock. -/
def loopStep (inp : Input) (st : LoopState) : LoopState × CycleOut :=
  let eyeIn := if inp.facePresent then st.eye else idleSig
  let yawnIn := if inp.facePresent then st.yawn else idleSig
  let er := sigStep DROWSY_TIME (eye_closed_now inp) inp.now eyeIn
  let yr := sigStep YAWN_TIME (mouth_open_now inp) inp.now yawnIn
  let ar := if er.1.confirmed || yr.1.confirmed
            then should_alert inp.alertNow st.lastAlert
            else (false, st.lastAlert)
  (⟨er.1, yr.1, ar.2⟩, ⟨er.2, yr.2, ar.1⟩)

/-- Iterate the loop body over a list of cycles. -/
def runLoop : LoopState → List Input → LoopState × List CycleOut
  | st, [] => (st, [])
  | st, i :: rest =>
    let p := loopStep i st
    let q := runLoop p.1 rest
    (q.1, p.2 :: q.2)

/-- Per-cycle `DROWSY` event flags of a run. -/
def drowsyEvents (st : LoopState) (L : List Input) : List Bool :=
  (runLoop st L).2.map CycleOut.drowsy

/-- Per-cycle `YAWN` event flags of a run. -/
def yawnEvents (st : LoopState) (L : List Input) : List Bool :=
  (runLoop st L).2.map CycleOut.yawn

/-- Per-cycle alert-sound flags of a run. -/
def alertFlags (st : LoopState) (L : List Input) : List Bool :=
  (runLoop st L).2.map CycleOut.alert

/-- The timestamps (`current_time` at line 551) at which the alert sound
fired during a run. -/
def firingTimes : LoopState → List Input → List ℚ
  | _, [] => []
  | st, i :: rest =>
    (if (loopStep i st).2.alert then [i.alertNow] else []) ++
      firingTimes (loopStep i st).1 rest

/-- `eye_aspect_ratio`, src/main.py lines 89-99, over the three already
computed landmark distances `A`, `B`, `C` (the raw pixel geometry is outside
the detection core): `if C == 0: return 0.0; return (A + B) / (2.0 * C)`. -/
def eye_aspect_ratio (A B C : ℚ) : ℚ :=
  if C = 0 then 0 else (A + B) / (2 * C)

/-! ### Named-pipe writer (src/main.py lines 240-264)

The two OS calls that can raise are `os.open` inside `try_connect_pipe` and
`os.write` inside `send_event`.  Their outcomes for the one attempt a call
makes are passed in as `Except` values; an embedded function whose result is
`Except.error e` is one that lets the Python exception `e` escape to the
caller. -/

/-- OS-level failures that the pipe code can see.  `brokenPipe` is
`BrokenPipeError` (reader disconnected), `wouldBlock` is `BlockingIOError`
(kernel pipe buffer full), `other` is any other `OSError` (e.g. `ENXIO` from
a non-blocking open with no reader). -/
inductive OsError where
  | brokenPipe
  | wouldBlock
  | other
deriving DecidableEq

/-- `try_connect_pipe`, lines 240-245: one non-blocking `os.open`; any
`OSError` is caught and turned into `None`. -/
def try_connect_pipe (openRes : Except OsError ℕ) : Option ℕ :=
  match openRes with
  | Except.ok fd => some fd
  | Except.error _ => none

/-- `send_event`, lines 248-264: if no handle is held, make one connect
attempt; if still unconnected, return.  Otherwise do one `os.write`, whose
`BrokenPipeError` / `BlockingIOError` / `OSError` are all caught by the
`except ...: pass` at line 261-262.  The returned value is the `pipe_fd` the
caller stores back; the `Except` layer records whether any exception escapes
`send_event` itself. -/
def send_event (openRes : Except OsError ℕ) (writeRes : Except OsError Unit)
    (pipe_fd : Option ℕ) : Except OsError (Option ℕ) :=
  let fd := match pipe_fd with
    | none => try_connect_pipe openRes
    | some h => some h
  match fd with
  | none => Except.ok none
  | some h =>
    match writeRes with
    | Except.ok _ => Except.ok (some h)
    | Except.error _ => Except.ok (some h)

/-- `true` iff the embedded call returns normally (no Python exception
escapes to the caller). -/
def returnsNormally (r : Except OsError (Option ℕ)) : Bool :=
  match r with
  | Except.ok _ => true
  | Except.error _ => false

/-! ### Shutdown paths (src/main.py lines 579-597) -/

/-- How the sampling loop's execution ends, seen from `main`'s caller:
the `while` loop exits by `break` (key press, window closed, frame-read
failure) and `main` returns normally, or a `KeyboardInterrupt` (Ctrl+C), or
any other exception propagates out of the loop. -/
inductive PyExc where
  | keyboardInterrupt
  | fatal
deriving DecidableEq

/-- Which teardown actions ran before process exit: was the pipe write
handle closed (`os.close(pipe_fd)`, line 583) and was the FIFO filesystem
object removed (`os.remove(PIPE_PATH)`, line 585)? -/
structure TeardownActions where
  handleClosed : Bool
  fifoRemoved : Bool
deriving DecidableEq

/-- The cleanup block at lines 579-587: it closes the handle if one is held
and removes the FIFO.  It sits after the `while` loop, in no `finally` /
`with` block, so it runs exactly when the loop exits normally. -/
def mainCleanup (held : Bool) : TeardownActions := ⟨held, true⟩

/-- `main` as seen from the `__main__` guard: the loop's outcome, then (only
on normal exit) the cleanup block. -/
def mainBody (loopOutcome : Except PyExc Unit) (held : Bool) :
    Except PyExc TeardownActions :=
  match loopOutcome with
  | Except.ok _ => Except.ok (mainCleanup held)
  | Except.error e => Except.error e

/-- The `__main__` guard, lines 590-597: `KeyboardInterrupt` is caught, its
handler calls only `cv2.destroyAllWindows()`; other exceptions propagate;
the `finally` runs only `logging.shutdown()`.  Neither error path closes the
pipe handle or removes the FIFO. -/
def program (loopOutcome : Except PyExc Unit) (held : Bool) :
    TeardownActions :=
  match mainBody loopOutcome held with
  | Except.ok acts => acts
  | Except.error PyExc.keyboardInterrupt => ⟨false, false⟩
  | Except.error PyExc.fatal => ⟨false, false⟩

/-! ### Clock model (for claim C9)

The loop timestamps each cycle by calling `time.time()` (lines 441 and 551),
i.e. the calendar clock.  A calendar reading is the underlying monotonic
instant plus the current system-clock offset; an administrator adjustment
mid-run changes the offset of all later cycles. -/

/-- Calendar timestamps of a run: per-cycle monotonic instants plus the
per-cycle system-clock offset. -/
def calendarTimes (mono off : List ℚ) : List ℚ := List.zipWith (· + ·) mono off

/-- Shift every stored timestamp of a signal state by `c`. -/
def shiftSig (c : ℚ) (s : SigState) : SigState :=
  ⟨s.start.map (· + c), s.confirmed⟩

/-- Shift the clock readings of one cycle by `c` (the measurements are
unchanged: the same frames, read under a different clock setting). -/
def shiftInput (c : ℚ) (i : Input) : Input :=
  { i with now := i.now + c, alertNow := i.alertNow + c }

/-- Shift every stored timestamp of a loop state by `c`. -/
def shiftState (c : ℚ) (st : LoopState) : LoopState :=
  ⟨shiftSig c st.eye, shiftSig c st.yawn, st.lastAlert + c⟩

/-! ### Concrete cycles and auxiliary list functions -/

/-- A face-present cycle with the eyes read as closed (`ear = 0.15`,
below `EAR_THRESHOLD = 0.22`), mouth closed, at time `t`. -/
def closedAt (t : ℚ) : Input := ⟨true, mkRat 15 100, 0, 0, 0, t, t⟩

/-- A face-present cycle with the eyes open (`ear = 0.30`) and mouth
closed, at time `t`. -/
def openAt (t : ℚ) : Input := ⟨true, mkRat 3 10, 0, 0, 0, t, t⟩

/-- A cycle with no face detected but with every retained metric reading
over its threshold, at time `t`. -/
def awayAt (t : ℚ) : Input := ⟨false, mkRat 1 10, mkRat 9 10, mkRat 9 10, mkRat 9 10, t, t⟩

/-- Pair every timestamp with an over-threshold condition. -/
def allTrue (ts : List ℚ) : List (Bool × ℚ) := ts.map (fun u => (true, u))

/-- The event-flag pattern of a `Pending(t0)` signal fed over-threshold
cycles at timestamps `us`: a single `true` at the first cycle whose
timestamp `u` has `sustain ≤ u - t0`, `false` everywhere else. -/
def firstConfirmFlags (sustain t0 : ℚ) : List ℚ → List Bool
  | [] => []
  | u :: us =>
    if sustain ≤ u - t0 then true :: us.map (fun _ => false)
    else false :: firstConfirmFlags sustain t0 us

/-- Last element of `us`, or `d` when `us` is empty. -/
def lastD (d : ℚ) : List ℚ → ℚ
  | [] => d
  | u :: us => lastD u us

/-! ### Basic lemmas about one signal -/

/-- An under-threshold cycle resets any signal state to idle with no event. -/
lemma sigStep_false (sustain now : ℚ) (s : SigState) :
    sigStep sustain false now s = (idleSig, false) := rfl

lemma runSig_nil (sustain : ℚ) (s : SigState) :
    runSig sustain s [] = (s, []) := rfl

lemma runSig_cons (sustain : ℚ) (s : SigState) (c : Bool × ℚ)
    (rest : List (Bool × ℚ)) :
    runSig sustain s (c :: rest) =
      ((runSig sustain (sigStep sustain c.1 c.2 s).1 rest).1,
        (sigStep sustain c.1 c.2 s).2 ::
          (runSig sustain (sigStep sustain c.1 c.2 s).1 rest).2) := rfl

lemma allTrue_cons (u : ℚ) (us : List ℚ) :
    allTrue (u :: us) = (true, u) :: allTrue us := rfl

/-- A confirmed signal fed only over-threshold cycles stays confirmed with
the same start time and emits nothing. -/
lemma runSig_confirmed (sustain t0 : ℚ) :
    ∀ us : List ℚ,
      runSig sustain ⟨some t0, true⟩ (allTrue us) =
        (⟨some t0, true⟩, us.map fun _ => false) := by
  intro us
  induction us with
  | nil => rfl
  | cons u us ih =>
    rw [allTrue_cons, runSig_cons]
    by_cases h : sustain ≤ u - t0 <;>
      simp [sigStep, h, ih]

/-- A pending, unconfirmed signal fed only over-threshold cycles keeps its
start time and emits exactly the `firstConfirmFlags` pattern. -/
lemma runSig_pending (sustain t0 : ℚ) :
    ∀ us : List ℚ,
      (runSig sustain ⟨some t0, false⟩ (allTrue us)).2 =
          firstConfirmFlags sustain t0 us ∧
        (runSig sustain ⟨some t0, false⟩ (allTrue us)).1.start = some t0 := by
  intro us
  induction us with
  | nil => exact ⟨rfl, rfl⟩
  | cons u us ih =>
    rw [allTrue_cons, runSig_cons]
    by_cases h : sustain ≤ u - t0
    · simp [sigStep, h, firstConfirmFlags, runSig_confirmed]
    · simp [sigStep, h, firstConfirmFlags, ih.1, ih.2]

lemma count_true_replicate (n : ℕ) :
    (List.replicate n false).count true = 0 := by
  induction n with
  | zero => rfl
  | succ m ih => simp [List.replicate_succ, List.count_cons, ih]

lemma count_true_map_false (l : List ℚ) :
    (l.map fun _ => false).count true = 0 := by
  induction l with
  | nil => rfl
  | cons u us ih => simp [List.count_cons, ih, count_true_replicate]

lemma firstConfirmFlags_count (sustain t0 : ℚ) :
    ∀ us : List ℚ,
      (firstConfirmFlags sustain t0 us).count true =
        if us.any (fun u => decide (sustain ≤ u - t0)) then 1 else 0 := by
  intro us
  induction us with
  | nil => rfl
  | cons u us ih =>
    by_cases h : sustain ≤ u - t0 <;>
      simp [firstConfirmFlags, h, List.count_cons, ih, count_true_replicate]

lemma findIdx_replicate_false (n : ℕ) :
    (List.replicate n false).findIdx (fun b => b) = n := by
  induction n with
  | zero => rfl
  | succ m ih => simp [List.replicate_succ, List.findIdx_cons, ih]

lemma findIdx_map_false (l : List ℚ) :
    (l.map fun _ => false).findIdx (fun b => b) = l.length := by
  induction l with
  | nil => rfl
  | cons u us ih => simp [List.findIdx_cons, ih, findIdx_replicate_false]

lemma firstConfirmFlags_findIdx (sustain t0 : ℚ) :
    ∀ us : List ℚ,
      (firstConfirmFlags sustain t0 us).findIdx (fun b => b) =
        us.findIdx fun u => decide (sustain ≤ u - t0) := by
  intro us
  induction us with
  | nil => rfl
  | cons u us ih =>
    by_cases h : sustain ≤ u - t0 <;>
      simp [firstConfirmFlags, h, List.findIdx_cons, ih, findIdx_replicate_false]

lemma firstConfirmFlags_all_under (sustain t0 : ℚ) :
    ∀ us : List ℚ, (∀ u ∈ us, ¬ sustain ≤ u - t0) →
      firstConfirmFlags sustain t0 us = us.map fun _ => false := by
  intro us
  induction us with
  | nil => intro _; rfl
  | cons u us ih =>
    intro h
    have hu : ¬ sustain ≤ u - t0 := h u (by simp)
    simp [firstConfirmFlags, hu, ih fun v hv => h v (by simp [hv])]

lemma lastD_mem (u : ℚ) : ∀ us : List ℚ, lastD u us ∈ u :: us := by
  intro us
  induction us generalizing u with
  | nil => simp [lastD]
  | cons v vs ih =>
    have := ih v
    simp only [lastD]
    rcases List.mem_cons.mp this with h | h
    · simp [h]
    · simp [h]

/-- From idle, a run of over-threshold cycles at timestamps `t0 :: ts`
whose total span reaches `sustain` emits exactly one event, at the first
cycle whose timestamp `u` has `sustain ≤ u - t0`; the recorded start stays
`t0` throughout. -/
lemma runSig_one_event (sustain t0 : ℚ) (ts : List ℚ) (hs : 0 < sustain)
    (hdur : sustain ≤ lastD t0 ts - t0) :
    (runSig sustain idleSig (allTrue (t0 :: ts))).2.count true = 1 ∧
    (runSig sustain idleSig (allTrue (t0 :: ts))).2.findIdx (fun b => b) =
      (t0 :: ts).findIdx (fun u => decide (sustain ≤ u - t0)) ∧
    (runSig sustain idleSig (allTrue (t0 :: ts))).1.start = some t0 := by
  have hstep : sigStep sustain true t0 idleSig = (⟨some t0, false⟩, false) := rfl
  have hp := runSig_pending sustain t0 ts
  have hts : ∃ v vs, ts = v :: vs := by
    cases ts with
    | nil =>
      exfalso
      simp only [lastD] at hdur
      have : (0 : ℚ) < t0 - t0 := lt_of_lt_of_le hs hdur
      simp at this
    | cons v vs => exact ⟨v, vs, rfl⟩
  obtain ⟨v, vs, hveq⟩ := hts
  have hmem : lastD t0 ts ∈ ts := by
    subst hveq
    simp only [lastD]
    exact lastD_mem v vs
  have hany : ts.any (fun u => decide (sustain ≤ u - t0)) = true :=
    List.any_eq_true.mpr ⟨lastD t0 ts, hmem, by simpa using hdur⟩
  have ht0 : (decide (sustain ≤ t0 - t0)) = false := by
    simp [not_le.mpr (by simpa using hs)]
  refine ⟨?_, ?_, ?_⟩
  · rw [allTrue_cons, runSig_cons, hstep]
    simp only [List.count_cons, hp.1, firstConfirmFlags_count, hany]
    simp
  · rw [allTrue_cons, runSig_cons, hstep]
    simp only [List.findIdx_cons, hp.1, firstConfirmFlags_findIdx, ht0]
  · rw [allTrue_cons, runSig_cons, hstep]
    exact hp.2

/-! ### Bridging the loop to the two signals -/

lemma runLoop_nil (st : LoopState) : runLoop st [] = (st, []) := rfl

lemma runLoop_cons (st : LoopState) (i : Input) (rest : List Input) :
    runLoop st (i :: rest) =
      ((runLoop (loopStep i st).1 rest).1,
        (loopStep i st).2 :: (runLoop (loopStep i st).1 rest).2) := rfl

lemma eye_closed_now_no_face (inp : Input) (hf : inp.facePresent = false) :
    eye_closed_now inp = false := by simp [eye_closed_now, hf]

lemma mouth_open_now_no_face (inp : Input) (hf : inp.facePresent = false) :
    mouth_open_now inp = false := by simp [mouth_open_now, hf]

lemma loopStep_eye (inp : Input) (st : LoopState) :
    (loopStep inp st).1.eye =
        (sigStep DROWSY_TIME (eye_closed_now inp) inp.now st.eye).1 ∧
      (loopStep inp st).2.drowsy =
        (sigStep DROWSY_TIME (eye_closed_now inp) inp.now st.eye).2 := by
  cases hf : inp.facePresent with
  | true => constructor <;> simp [loopStep, hf]
  | false =>
    have hec := eye_closed_now_no_face inp hf
    constructor <;> simp [loopStep, hf, hec, sigStep_false, idleSig]

lemma loopStep_yawn (inp : Input) (st : LoopState) :
    (loopStep inp st).1.yawn =
        (sigStep YAWN_TIME (mouth_open_now inp) inp.now st.yawn).1 ∧
      (loopStep inp st).2.yawn =
        (sigStep YAWN_TIME (mouth_open_now inp) inp.now st.yawn).2 := by
  cases hf : inp.facePresent with
  | true => constructor <;> simp [loopStep, hf]
  | false =>
    have hmo := mouth_open_now_no_face inp hf
    constructor <;> simp [loopStep, hf, hmo, sigStep_false, idleSig]

/-- The eye component of the loop is exactly the signal machine driven by
`eye_closed_now` and the cycle timestamps. -/
lemma runLoop_eye : ∀ (L : List Input) (st : LoopState),
    (runLoop st L).1.eye =
        (runSig DROWSY_TIME st.eye (L.map fun i => (eye_closed_now i, i.now))).1 ∧
      (runLoop st L).2.map CycleOut.drowsy =
        (runSig DROWSY_TIME st.eye (L.map fun i => (eye_closed_now i, i.now))).2 := by
  intro L
  induction L with
  | nil => intro st; exact ⟨rfl, rfl⟩
  | cons i rest ih =>
    intro st
    rw [runLoop_cons, List.map_cons, runSig_cons]
    constructor
    · show (runLoop (loopStep i st).1 rest).1.eye = _
      rw [(ih (loopStep i st).1).1, (loopStep_eye i st).1]
    · simp only [List.map_cons]
      rw [(ih (loopStep i st).1).2, (loopStep_eye i st).1, (loopStep_eye i st).2]

/-- The mouth component of the loop is exactly the signal machine driven by
`mouth_open_now` and the cycle timestamps. -/
lemma runLoop_yawn : ∀ (L : List Input) (st : LoopState),
    (runLoop st L).1.yawn =
        (runSig YAWN_TIME st.yawn (L.map fun i => (mouth_open_now i, i.now))).1 ∧
      (runLoop st L).2.map CycleOut.yawn =
        (runSig YAWN_TIME st.yawn (L.map fun i => (mouth_open_now i, i.now))).2 := by
  intro L
  induction L with
  | nil => intro st; exact ⟨rfl, rfl⟩
  | cons i rest ih =>
    intro st
    rw [runLoop_cons, List.map_cons, runSig_cons]
    constructor
    · show (runLoop (loopStep i st).1 rest).1.yawn = _
      rw [(ih (loopStep i st).1).1, (loopStep_yawn i st).1]
    · simp only [List.map_cons]
      rw [(ih (loopStep i st).1).2, (loopStep_yawn i st).1, (loopStep_yawn i st).2]

lemma map_pair_allTrue (p : Input → Bool) :
    ∀ L : List Input, (∀ i ∈ L, p i = true) →
      L.map (fun i => (p i, i.now)) = allTrue (L.map Input.now) := by
  intro L
  induction L with
  | nil => intro _; rfl
  | cons a l ih =>
    intro h
    have ha : p a = true := h a (List.mem_cons_self a l)
    have ht := ih fun i hi => h i (List.mem_cons_of_mem a hi)
    simp only [List.map_cons, allTrue_cons, ha, ht]

lemma findIdx_map_now (q : ℚ → Bool) :
    ∀ L : List Input,
      (L.map Input.now).findIdx q = L.findIdx (fun i => q i.now) := by
  intro L
  induction L with
  | nil => rfl
  | cons a l ih => simp [List.findIdx_cons, ih]

/-- Loop-level form of `runSig_one_event` for the eye signal / `DROWSY`. -/
lemma drowsy_run_from_idle (st0 : LoopState) (i0 : Input) (rest : List Input)
    (h0 : st0.eye = idleSig)
    (hin : ∀ i ∈ i0 :: rest, eye_closed_now i = true)
    (hdur : DROWSY_TIME ≤ lastD i0.now (rest.map Input.now) - i0.now) :
    (drowsyEvents st0 (i0 :: rest)).count true = 1 ∧
    (drowsyEvents st0 (i0 :: rest)).findIdx (fun b => b) =
      (i0 :: rest).findIdx (fun i => decide (DROWSY_TIME ≤ i.now - i0.now)) ∧
    (runLoop st0 (i0 :: rest)).1.eye.start = some i0.now := by
  have hb := runLoop_eye (i0 :: rest) st0
  have hmap := map_pair_allTrue eye_closed_now (i0 :: rest) hin
  have hmain := runSig_one_event DROWSY_TIME i0.now (rest.map Input.now)
    (by norm_num [DROWSY_TIME]) hdur
  rw [h0, hmap] at hb
  have hnow : allTrue ((i0 :: rest).map Input.now) =
      allTrue (i0.now :: rest.map Input.now) := by simp
  rw [hnow] at hb
  refine ⟨?_, ?_, ?_⟩
  · rw [drowsyEvents, hb.2]; exact hmain.1
  · rw [drowsyEvents, hb.2, hmain.2.1]
    have := findIdx_map_now (fun u => decide (DROWSY_TIME ≤ u - i0.now)) (i0 :: rest)
    simpa using this
  · rw [hb.1]; exact hmain.2.2

/-- Loop-level form of `runSig_one_event` for the mouth signal / `YAWN`. -/
lemma yawn_run_from_idle (st0 : LoopState) (i0 : Input) (rest : List Input)
    (h0 : st0.yawn = idleSig)
    (hin : ∀ i ∈ i0 :: rest, mouth_open_now i = true)
    (hdur : YAWN_TIME ≤ lastD i0.now (rest.map Input.now) - i0.now) :
    (yawnEvents st0 (i0 :: rest)).count true = 1 ∧
    (yawnEvents st0 (i0 :: rest)).findIdx (fun b => b) =
      (i0 :: rest).findIdx (fun i => decide (YAWN_TIME ≤ i.now - i0.now)) ∧
    (runLoop st0 (i0 :: rest)).1.yawn.start = some i0.now := by
  have hb := runLoop_yawn (i0 :: rest) st0
  have hmap := map_pair_allTrue mouth_open_now (i0 :: rest) hin
  have hmain := runSig_one_event YAWN_TIME i0.now (rest.map Input.now)
    (by norm_num [YAWN_TIME]) hdur
  rw [h0, hmap] at hb
  have hnow : allTrue ((i0 :: rest).map Input.now) =
      allTrue (i0.now :: rest.map Input.now) := by simp
  rw [hnow] at hb
  refine ⟨?_, ?_, ?_⟩
  · rw [yawnEvents, hb.2]; exact hmain.1
  · rw [yawnEvents, hb.2, hmain.2.1]
    have := findIdx_map_now (fun u => decide (YAWN_TIME ≤ u - i0.now)) (i0 :: rest)
    simpa using this
  · rw [hb.1]; exact hmain.2.2

/-- Claim C1: a run of cycles on which the eye-closure (resp. mouth-open)
condition holds continuously (which requires a face), started from an idle
signal and spanning at least the sustain duration, emits exactly one
`DROWSY` (resp. `YAWN`) event; it is emitted at the first cycle whose
timestamp `now` has `now - started_at >= sustain`, where `started_at` is the
first cycle's timestamp (the cycle that entered the pending phase, whose
recorded start it stays); all later cycles of the run emit none. -/
theorem single_event_per_sustained_run :
    ((0 : ℚ) < DROWSY_TIME ∧ (0 : ℚ) < YAWN_TIME) ∧
    (∀ (st0 : LoopState) (i0 : Input) (rest : List Input),
      st0.eye = idleSig →
      (∀ i ∈ i0 :: rest, eye_closed_now i = true) →
      DROWSY_TIME ≤ lastD i0.now (rest.map Input.now) - i0.now →
      (drowsyEvents st0 (i0 :: rest)).count true = 1 ∧
      (drowsyEvents st0 (i0 :: rest)).findIdx (fun b => b) =
        (i0 :: rest).findIdx (fun i => decide (DROWSY_TIME ≤ i.now - i0.now)) ∧
      (runLoop st0 (i0 :: rest)).1.eye.start = some i0.now) ∧
    (∀ (st0 : LoopState) (i0 : Input) (rest : List Input),
      st0.yawn = idleSig →
      (∀ i ∈ i0 :: rest, mouth_open_now i = true) →
      YAWN_TIME ≤ lastD i0.now (rest.map Input.now) - i0.now →
      (yawnEvents st0 (i0 :: rest)).count true = 1 ∧
      (yawnEvents st0 (i0 :: rest)).findIdx (fun b => b) =
        (i0 :: rest).findIdx (fun i => decide (YAWN_TIME ≤ i.now - i0.now)) ∧
      (runLoop st0 (i0 :: rest)).1.yawn.start = some i0.now) :=
  ⟨⟨by norm_num [DROWSY_TIME], by norm_num [YAWN_TIME]⟩,
    fun st0 i0 rest => drowsy_run_from_idle st0 i0 rest,
    fun st0 i0 rest => yawn_run_from_idle st0 i0 rest⟩

/-- Witness for C1 on a concrete over-threshold run at `t = 0, 1, 2`: the
hypotheses hold and exactly one `DROWSY` event fires, at index 2 (the first
cycle with `now - 0 >= 2`). -/
theorem single_event_per_sustained_run_wit :
    (∀ i ∈ closedAt 0 :: [closedAt 1, closedAt 2], eye_closed_now i = true) ∧
    DROWSY_TIME ≤ lastD (closedAt 0).now ([closedAt 1, closedAt 2].map Input.now) -
      (closedAt 0).now ∧
    (drowsyEvents initState (closedAt 0 :: [closedAt 1, closedAt 2])).count true = 1 ∧
    (drowsyEvents initState (closedAt 0 :: [closedAt 1, closedAt 2])).findIdx
      (fun b => b) = 2 :=
  ⟨by with_unfolding_all decide, by with_unfolding_all decide,
    (single_event_per_sustained_run.2.1 initState (closedAt 0) [closedAt 1, closedAt 2]
      rfl (by with_unfolding_all decide) (by with_unfolding_all decide)).1,
    by
      rw [(single_event_per_sustained_run.2.1 initState (closedAt 0)
        [closedAt 1, closedAt 2] rfl (by with_unfolding_all decide)
        (by with_unfolding_all decide)).2.1]
      with_unfolding_all decide⟩

lemma runLoop_append : ∀ (L1 L2 : List Input) (st : LoopState),
    runLoop st (L1 ++ L2) =
      ((runLoop (runLoop st L1).1 L2).1,
        (runLoop st L1).2 ++ (runLoop (runLoop st L1).1 L2).2) := by
  intro L1
  induction L1 with
  | nil => intro L2 st; simp [runLoop_nil]
  | cons i l ih =>
    intro L2 st
    rw [List.cons_append, runLoop_cons, ih, runLoop_cons]
    rfl

lemma drowsyEvents_append (st : LoopState) (L1 L2 : List Input) :
    drowsyEvents st (L1 ++ L2) =
      drowsyEvents st L1 ++ drowsyEvents (runLoop st L1).1 L2 := by
  simp [drowsyEvents, runLoop_append]

lemma drowsyEvents_cons (st : LoopState) (i : Input) (L : List Input) :
    drowsyEvents st (i :: L) =
      (loopStep i st).2.drowsy :: drowsyEvents (loopStep i st).1 L := by
  simp [drowsyEvents, runLoop_cons]

lemma runLoop_length : ∀ (L : List Input) (st : LoopState),
    (runLoop st L).2.length = L.length := by
  intro L
  induction L with
  | nil => intro st; rfl
  | cons i l ih => intro st; rw [runLoop_cons]; simp [ih]

lemma drowsyEvents_length (st : LoopState) (L : List Input) :
    (drowsyEvents st L).length = L.length := by
  simp [drowsyEvents, runLoop_length]

/-- A run of over-threshold cycles whose timestamps pairwise span less than
the sustain duration, started from idle, emits no `DROWSY` event. -/
lemma drowsy_run_short (st0 : LoopState) (pre : List Input)
    (h0 : st0.eye = idleSig)
    (hin : ∀ i ∈ pre, eye_closed_now i = true)
    (hshort : ∀ i ∈ pre, ∀ j ∈ pre, j.now - i.now < DROWSY_TIME) :
    ∀ b ∈ drowsyEvents st0 pre, b = false := by
  cases pre with
  | nil => intro b hb; simp [drowsyEvents, runLoop_nil] at hb
  | cons p0 ps =>
    have hb := runLoop_eye (p0 :: ps) st0
    have hmap := map_pair_allTrue eye_closed_now (p0 :: ps) hin
    rw [h0, hmap] at hb
    have hunder : ∀ u ∈ ps.map Input.now, ¬ DROWSY_TIME ≤ u - p0.now := by
      intro u hu
      obtain ⟨j, hj, rfl⟩ := List.mem_map.mp hu
      exact not_le.mpr
        (hshort p0 (List.mem_cons_self _ _) j (List.mem_cons_of_mem _ hj))
    have hflags := firstConfirmFlags_all_under DROWSY_TIME p0.now
      (ps.map Input.now) hunder
    have hev : drowsyEvents st0 (p0 :: ps) =
        false :: firstConfirmFlags DROWSY_TIME p0.now (ps.map Input.now) := by
      rw [drowsyEvents, hb.2]
      have hnow : allTrue ((p0 :: ps).map Input.now) =
          allTrue (p0.now :: ps.map Input.now) := by simp
      rw [hnow, allTrue_cons, runSig_cons]
      have hstep : sigStep DROWSY_TIME true p0.now idleSig =
          (⟨some p0.now, false⟩, false) := rfl
      rw [hstep]
      simp [(runSig_pending DROWSY_TIME p0.now (ps.map Input.now)).1]
    rw [hev, hflags]
    intro b hbm
    rcases List.mem_cons.mp hbm with h | h
    · exact h
    · obtain ⟨u, _, hb2⟩ := List.mem_map.mp h
      exact hb2.symm

lemma count_true_of_all_false (l : List Bool) (h : ∀ b ∈ l, b = false) :
    l.count true = 0 := by
  rw [List.count_eq_zero]
  intro hmem
  exact absurd (h true hmem) (by simp)

lemma findIdx_false_cons (l : List Bool) :
    (false :: l).findIdx (fun b => b) = l.findIdx (fun b => b) + 1 := by
  simp [List.findIdx_cons]

lemma findIdx_false_append (l1 l2 : List Bool) (h : ∀ b ∈ l1, b = false) :
    (l1 ++ l2).findIdx (fun b => b) = l1.length + l2.findIdx (fun b => b) := by
  induction l1 with
  | nil => simp
  | cons b l ih =>
    have hb : b = false := h b (List.mem_cons_self _ _)
    subst hb
    have := ih fun x hx => h x (List.mem_cons_of_mem _ hx)
    simp [List.findIdx_cons, this]
    omega

/-- Claim C2: an under-threshold reading of a combined signal (face present
or not) hard-resets that signal to idle in the same cycle with no event —
from pending and confirmed alike, with no separate exit threshold; hence
after a dip below threshold, confirmation is timed from the new crossing: a
short over-run, a dip, then a sustained over-run emit exactly one event, at
the first cycle of the second run whose timestamp is `sustain` past the
second crossing. -/
theorem under_threshold_hard_reset :
    (∀ (inp : Input) (st : LoopState), eye_closed_now inp = false →
      (loopStep inp st).1.eye = idleSig ∧ (loopStep inp st).2.drowsy = false) ∧
    (∀ (inp : Input) (st : LoopState), mouth_open_now inp = false →
      (loopStep inp st).1.yawn = idleSig ∧ (loopStep inp st).2.yawn = false) ∧
    (∀ (st0 : LoopState) (pre : List Input) (d i0 : Input) (rest : List Input),
      st0.eye = idleSig →
      (∀ i ∈ pre, eye_closed_now i = true) →
      (∀ i ∈ pre, ∀ j ∈ pre, j.now - i.now < DROWSY_TIME) →
      eye_closed_now d = false →
      (∀ i ∈ i0 :: rest, eye_closed_now i = true) →
      DROWSY_TIME ≤ lastD i0.now (rest.map Input.now) - i0.now →
      (drowsyEvents st0 (pre ++ d :: i0 :: rest)).count true = 1 ∧
      (drowsyEvents st0 (pre ++ d :: i0 :: rest)).findIdx (fun b => b) =
        pre.length + 1 +
          (i0 :: rest).findIdx (fun i => decide (DROWSY_TIME ≤ i.now - i0.now))) := by
  refine ⟨?_, ?_, ?_⟩
  · intro inp st h
    have he := loopStep_eye inp st
    rw [h, sigStep_false] at he
    exact he
  · intro inp st h
    have hy := loopStep_yawn inp st
    rw [h, sigStep_false] at hy
    exact hy
  · intro st0 pre d i0 rest h0 hpre hshort hd hin hdur
    set st1 := (runLoop st0 pre).1 with hst1
    set st2 := (loopStep d st1).1 with hst2
    have hd2 : (loopStep d st1).2.drowsy = false := by
      have h := (loopStep_eye d st1).2
      rw [hd, sigStep_false] at h
      exact h
    have hidle2 : st2.eye = idleSig := by
      have h := (loopStep_eye d st1).1
      rw [hd, sigStep_false] at h
      exact h
    have hrun := drowsy_run_from_idle st2 i0 rest hidle2 hin hdur
    have hA : ∀ b ∈ drowsyEvents st0 pre, b = false :=
      drowsy_run_short st0 pre h0 hpre hshort
    have hsplit : drowsyEvents st0 (pre ++ d :: i0 :: rest) =
        drowsyEvents st0 pre ++ (false :: drowsyEvents st2 (i0 :: rest)) := by
      rw [drowsyEvents_append, drowsyEvents_cons, hd2]
    constructor
    · rw [hsplit, List.count_append, count_true_of_all_false _ hA,
        List.count_cons]
      simp [hrun.1]
    · rw [hsplit, findIdx_false_append _ _ hA, drowsyEvents_length,
        findIdx_false_cons, hrun.2.1]
      omega

/-- Witness for C2: a one-cycle over-run at `t = 0`, a dip at `t = 1`, then
an over-run at `t = 2, 3, 4` — exactly one event, at index 4
(`t = 4 = 2 + DROWSY_TIME`, timed from the second crossing at `t = 2`). -/
theorem under_threshold_hard_reset_wit :
    eye_closed_now (openAt 1) = false ∧
    (drowsyEvents initState ([closedAt 0] ++ openAt 1 :: closedAt 2 ::
      [closedAt 3, closedAt 4])).count true = 1 ∧
    (drowsyEvents initState ([closedAt 0] ++ openAt 1 :: closedAt 2 ::
      [closedAt 3, closedAt 4])).findIdx (fun b => b) = 4 :=
  ⟨by with_unfolding_all decide,
    (under_threshold_hard_reset.2.2 initState [closedAt 0] (openAt 1) (closedAt 2)
      [closedAt 3, closedAt 4] rfl (by with_unfolding_all decide)
      (by with_unfolding_all decide) (by with_unfolding_all decide)
      (by with_unfolding_all decide) (by with_unfolding_all decide)).1,
    by
      rw [(under_threshold_hard_reset.2.2 initState [closedAt 0] (openAt 1)
        (closedAt 2) [closedAt 3, closedAt 4] rfl (by with_unfolding_all decide)
        (by with_unfolding_all decide) (by with_unfolding_all decide)
        (by with_unfolding_all decide) (by with_unfolding_all decide)).2]
      with_unfolding_all decide⟩

/-- Claim C3: a cycle with no face present forces both signal states to idle
in that same cycle, even from confirmed, and emits no event — whatever the
metric values of the cycle read. -/
theorem face_loss_forces_idle :
    ∀ (inp : Input) (st : LoopState), inp.facePresent = false →
      (loopStep inp st).1.eye = idleSig ∧ (loopStep inp st).1.yawn = idleSig ∧
      (loopStep inp st).2.drowsy = false ∧ (loopStep inp st).2.yawn = false := by
  intro inp st hf
  have hec := eye_closed_now_no_face inp hf
  have hmo := mouth_open_now_no_face inp hf
  have he := loopStep_eye inp st
  have hy := loopStep_yawn inp st
  rw [hec, sigStep_false] at he
  rw [hmo, sigStep_false] at hy
  exact ⟨he.1, hy.1, he.2, hy.2⟩

/-- Witness for C3: a no-face cycle whose retained metrics all read over
threshold, applied to a state in which both signals are confirmed. -/
theorem face_loss_forces_idle_wit :
    (loopStep (awayAt 5) ⟨⟨some 0, true⟩, ⟨some 0, true⟩, 0⟩).1.eye = idleSig ∧
    (loopStep (awayAt 5) ⟨⟨some 0, true⟩, ⟨some 0, true⟩, 0⟩).1.yawn = idleSig ∧
    (loopStep (awayAt 5) ⟨⟨some 0, true⟩, ⟨some 0, true⟩, 0⟩).2.drowsy = false ∧
    (loopStep (awayAt 5) ⟨⟨some 0, true⟩, ⟨some 0, true⟩, 0⟩).2.yawn = false :=
  face_loss_forces_idle (awayAt 5) ⟨⟨some 0, true⟩, ⟨some 0, true⟩, 0⟩ rfl

/-- Counterexample to C4 as stated: the gate compares with strict `>`
(line 560), so with a previous firing stamped at `0`, a check at
`now = 3 = ALERT_COOLDOWN` does **not** fire, although `now - last >=
cooldown`; likewise, in a run where the eye signal is confirmed from `t = 2`
on (so there are cycles with no prior firing, and a cycle at `t = 7` exactly
`ALERT_COOLDOWN` after the firing at `t = 4`), the sound fires only at
`t = 4`. -/
theorem alert_gate_boundary_cex :
    (should_alert 3 0).1 = false ∧
    ALERT_COOLDOWN ≤ (3 : ℚ) - 0 ∧
    alertFlags initState [closedAt 0, closedAt 2, closedAt 4, closedAt 7] =
      [false, false, true, false] ∧
    (runLoop initState [closedAt 0, closedAt 2, closedAt 4, closedAt 7]).1.eye.confirmed
      = true ∧
    (7 : ℚ) - 4 = ALERT_COOLDOWN :=
  ⟨by with_unfolding_all decide, by with_unfolding_all decide,
    by with_unfolding_all decide, by with_unfolding_all decide,
    by with_unfolding_all decide⟩

/-- Claim C4 as amended: the alert gate fires, and stamps
`last_fired_at = now`, exactly when `now - last_fired_at` **strictly**
exceeds the cooldown; at exactly the cooldown it does not fire and the stamp
is unchanged.  There is no separate "no prior firing" case: `last_alert_time`
starts at `0` (line 286). -/
theorem alert_gate_strict_cooldown :
    ∀ now last : ℚ,
      ((should_alert now last).1 = true ↔ ALERT_COOLDOWN < now - last) ∧
      ((should_alert now last).1 = true → (should_alert now last).2 = now) ∧
      ((should_alert now last).1 = false → (should_alert now last).2 = last) := by
  intro now last
  by_cases h : ALERT_COOLDOWN < now - last <;>
    simp [should_alert, h]

/-- Witness for C4's amended gate: at `now = 10`, `last = 0` the gate fires
and stamps `10`. -/
theorem alert_gate_strict_cooldown_wit :
    (should_alert 10 0).1 = true ∧ (should_alert 10 0).2 = 10 :=
  have h1 : (should_alert 10 0).1 = true :=
    (alert_gate_strict_cooldown 10 0).1.mpr (by norm_num [ALERT_COOLDOWN])
  ⟨h1, (alert_gate_strict_cooldown 10 0).2.1 h1⟩

/-- Claim C10: the aspect-ratio function returns `0` on degenerate eye
geometry (zero horizontal width), `0` is below `EAR_THRESHOLD`, and yet a
cycle whose `ear` is exactly `0` never counts as eye-closed through the EAR
comparison (line 435 requires `current_ear > 0`): with `ear = 0`, being
eye-closed is equivalent to the blink score reaching its threshold with a
face present. -/
theorem zero_ear_needs_blink :
    (∀ A B : ℚ, eye_aspect_ratio A B 0 = 0) ∧
    (0 : ℚ) < EAR_THRESHOLD ∧
    (∀ inp : Input, inp.ear = 0 →
      (eye_closed_now inp = true ↔
        (inp.facePresent = true ∧ BLINK_SCORE_THRESHOLD ≤ inp.blink))) := by
  refine ⟨?_, ?_, ?_⟩
  · intro A B
    simp [ eye_aspect_ratio]
  · rw [EAR_THRESHOLD]
    with_unfolding_all decide
  · intro inp h
    simp [eye_closed_now, h]

/-- Witness for C10: with a face, `ear = 0` and blink score `0.5`, the cycle
does count as eye-closed (through the blink branch). -/
theorem zero_ear_needs_blink_wit :
    eye_closed_now ⟨true, 0, 0, mkRat 1 2, 0, 0, 0⟩ = true :=
  (zero_ear_needs_blink.2.2 ⟨true, 0, 0, mkRat 1 2, 0, 0, 0⟩ rfl).mpr
    ⟨rfl, by with_unfolding_all decide⟩

/-! ### Alert cooldown lemmas -/

lemma loopStep_alert_eq (inp : Input) (st : LoopState) :
    ((loopStep inp st).2.alert, (loopStep inp st).1.lastAlert) =
      (if ((loopStep inp st).1.eye.confirmed || (loopStep inp st).1.yawn.confirmed)
        then should_alert inp.alertNow st.lastAlert
        else (false, st.lastAlert)) := rfl

lemma loopStep_fired (inp : Input) (st : LoopState)
    (h : (loopStep inp st).2.alert = true) :
    ALERT_COOLDOWN < inp.alertNow - st.lastAlert ∧
      (loopStep inp st).1.lastAlert = inp.alertNow := by
  have he := loopStep_alert_eq inp st
  by_cases hc : ((loopStep inp st).1.eye.confirmed ||
      (loopStep inp st).1.yawn.confirmed) = true
  · rw [if_pos hc] at he
    by_cases hg : ALERT_COOLDOWN < inp.alertNow - st.lastAlert
    · refine ⟨hg, ?_⟩
      have h2 := congrArg Prod.snd he
      simp only [should_alert, if_pos hg] at h2
      exact h2
    · exfalso
      have h1 := congrArg Prod.fst he
      simp only [should_alert, if_neg hg] at h1
      rw [h] at h1
      exact Bool.true_eq_false.mp h1
  · rw [if_neg hc] at he
    exfalso
    have h1 := congrArg Prod.fst he
    rw [h] at h1
    exact Bool.true_eq_false.mp h1

lemma loopStep_not_fired (inp : Input) (st : LoopState)
    (h : (loopStep inp st).2.alert = false) :
    (loopStep inp st).1.lastAlert = st.lastAlert := by
  have he := loopStep_alert_eq inp st
  by_cases hc : ((loopStep inp st).1.eye.confirmed ||
      (loopStep inp st).1.yawn.confirmed) = true
  · rw [if_pos hc] at he
    by_cases hg : ALERT_COOLDOWN < inp.alertNow - st.lastAlert
    · exfalso
      have h1 := congrArg Prod.fst he
      simp only [should_alert, if_pos hg] at h1
      rw [h] at h1
      exact Bool.false_eq_true.mp h1
    · have h2 := congrArg Prod.snd he
      simp only [should_alert, if_neg hg] at h2
      exact h2
  · rw [if_neg hc] at he
    exact congrArg Prod.snd he

lemma firingTimes_nil (st : LoopState) : firingTimes st [] = [] := rfl

lemma firingTimes_cons (st : LoopState) (i : Input) (rest : List Input) :
    firingTimes st (i :: rest) =
      (if (loopStep i st).2.alert then [i.alertNow] else []) ++
        firingTimes (loopStep i st).1 rest := rfl

/-- Every firing in a run happens strictly more than a cooldown after the
`last_alert_time` the run started with. -/
lemma firingTimes_lb : ∀ (L : List Input) (st : LoopState) (t : ℚ),
    t ∈ firingTimes st L → st.lastAlert + ALERT_COOLDOWN < t := by
  intro L
  induction L with
  | nil => intro st t ht; simp [firingTimes_nil] at ht
  | cons i rest ih =>
    intro st t ht
    rw [firingTimes_cons] at ht
    rcases List.mem_append.mp ht with h | h
    · cases ha : (loopStep i st).2.alert with
      | true =>
        rw [ha, if_pos rfl] at h
        have hf := loopStep_fired i st ha
        have heq : t = i.alertNow := by simpa using h
        subst heq
        linarith [hf.1]
      | false =>
        rw [ha] at h
        simp at h
    · cases ha : (loopStep i st).2.alert with
      | true =>
        have hf := loopStep_fired i st ha
        have hrec := ih (loopStep i st).1 t h
        rw [hf.2] at hrec
        have hC : (0 : ℚ) ≤ ALERT_COOLDOWN := by norm_num [ALERT_COOLDOWN]
        linarith [hf.1]
      | false =>
        have hrec := ih (loopStep i st).1 t h
        rw [loopStep_not_fired i st ha] at hrec
        exact hrec

/-- Any two firings in a run are more than a cooldown apart. -/
lemma firingTimes_pairwise : ∀ (L : List Input) (st : LoopState),
    (firingTimes st L).Pairwise (fun x y => ALERT_COOLDOWN < y - x) := by
  intro L
  induction L with
  | nil => intro st; simp [firingTimes_nil]
  | cons i rest ih =>
    intro st
    rw [firingTimes_cons]
    cases ha : (loopStep i st).2.alert with
    | false => simpa using ih (loopStep i st).1
    | true =>
      show List.Pairwise (fun x y => ALERT_COOLDOWN < y - x)
        (i.alertNow :: firingTimes (loopStep i st).1 rest)
      refine List.pairwise_cons.mpr ⟨?_, ih (loopStep i st).1⟩
      intro t ht
      have hf := loopStep_fired i st ha
      have hlb := firingTimes_lb rest (loopStep i st).1 t ht
      rw [hf.2] at hlb
      linarith

lemma pairwise_gap_window (F : List ℚ) (a : ℚ)
    (hp : F.Pairwise (fun x y => ALERT_COOLDOWN < y - x)) :
    (F.filter
      (fun t => decide (a ≤ t) && decide (t ≤ a + ALERT_COOLDOWN))).length ≤ 1 := by
  have hpf := List.Pairwise.sublist
    (@List.filter_sublist ℚ (fun t => decide (a ≤ t) && decide (t ≤ a + ALERT_COOLDOWN)) F) hp
  cases hGc : F.filter (fun t => decide (a ≤ t) && decide (t ≤ a + ALERT_COOLDOWN)) with
  | nil => simp [hGc]
  | cons x G' =>
    cases G' with
    | nil => simp [hGc]
    | cons y G'' =>
      exfalso
      rw [hGc] at hpf
      have hxy : ALERT_COOLDOWN < y - x := (List.pairwise_cons.mp hpf).1 y (by simp)
      have hx : x ∈ F.filter (fun t => decide (a ≤ t) && decide (t ≤ a + ALERT_COOLDOWN)) := by
        rw [hGc]; simp
      have hy : y ∈ F.filter (fun t => decide (a ≤ t) && decide (t ≤ a + ALERT_COOLDOWN)) := by
        rw [hGc]; simp
      have hx' := List.mem_filter.mp hx
      have hy' := List.mem_filter.mp hy
      simp only [Bool.and_eq_true, decide_eq_true_eq] at hx' hy'
      linarith [hx'.2.1, hy'.2.2, hxy]

/-- Claim C5: the alert cooldown is one global timer shared by both signal
kinds: along any run of the loop, any two alert-sound firings are more than
`ALERT_COOLDOWN` apart, so in any closed window of length `ALERT_COOLDOWN`
the sound fires at most once — however many confirmed drowsy or yawn
conditions the window contains, and whichever signal caused each firing. -/
theorem alert_cooldown_window :
    ∀ (st : LoopState) (L : List Input) (a : ℚ),
      (firingTimes st L).Pairwise (fun x y => ALERT_COOLDOWN < y - x) ∧
      ((firingTimes st L).filter
        (fun t => decide (a ≤ t) && decide (t ≤ a + ALERT_COOLDOWN))).length ≤ 1 :=
  fun st L a =>
    ⟨firingTimes_pairwise L st, pairwise_gap_window _ a (firingTimes_pairwise L st)⟩

/-- Claim C6: `send_event` never lets an exception reach the sampling loop:
whatever the outcomes of the open and write calls and whatever handle is
held, it returns normally; with no handle and a failing connect it returns
`None` after the single attempt (a silent drop), and with a handle held any
`OSError` from the write is swallowed. -/
theorem send_event_never_raises :
    (∀ (o : Except OsError ℕ) (w : Except OsError Unit) (fd : Option ℕ),
      returnsNormally (send_event o w fd) = true) ∧
    (∀ (e : OsError) (w : Except OsError Unit),
      send_event (Except.error e) w none = Except.ok none) ∧
    (∀ (o : Except OsError ℕ) (h : ℕ) (e : OsError),
      send_event o (Except.error e) (some h) = Except.ok (some h)) := by
  refine ⟨?_, ?_, ?_⟩
  · intro o w fd
    cases fd with
    | none =>
      cases o with
      | ok h => cases w <;> rfl
      | error e => rfl
    | some h => cases w <;> rfl
  · intro e w
    rfl
  · intro o h e
    rfl

/-- Counterexample to C7 as stated: a detected reader disconnect
(`BrokenPipeError` on the write) does **not** move the connection back to
`Disconnected` — the `except` clause at lines 261-262 only does `pass`, so
`send_event` still returns the same handle (`some 5`, not `none`) and no
later reconnect can be triggered while it is held. -/
theorem send_event_keeps_handle_cex :
    send_event (Except.ok 3) (Except.error OsError.brokenPipe) (some 5) =
      Except.ok (some 5) ∧
    (some 5 : Option ℕ) ≠ none :=
  ⟨rfl, by decide⟩

/-- Claim C7 as amended: from `Disconnected` (no handle), a successful
non-blocking open moves the connection to `Connected`; once a handle is
held it is never invalidated — every write failure, the fatal
`BrokenPipeError` included, leaves the same handle in place, and a reconnect
attempt happens only when no handle is held. -/
theorem send_event_connection_transitions :
    (∀ (h : ℕ) (w : Except OsError Unit),
      send_event (Except.ok h) w none = Except.ok (some h)) ∧
    (∀ (o : Except OsError ℕ) (w : Except OsError Unit) (h : ℕ),
      send_event o w (some h) = Except.ok (some h)) := by
  refine ⟨?_, ?_⟩
  · intro h w
    cases w <;> rfl
  · intro o w h
    cases w <;> rfl

/-- Counterexample to C8 as stated: on a `KeyboardInterrupt` with the pipe
handle held, neither teardown action runs — the handler at lines 593-595
closes no handle and removes no FIFO. -/
theorem teardown_skipped_on_interrupt_cex :
    program (Except.error PyExc.keyboardInterrupt) true =
      TeardownActions.mk false false ∧
    TeardownActions.mk false false ≠ TeardownActions.mk true true :=
  ⟨rfl, by decide⟩

/-- Claim C8 as amended: the pipe teardown (close the held handle, remove
the FIFO) runs exactly on the normal-exit path out of the sampling loop; on
`KeyboardInterrupt` and on a fatal error it is skipped entirely (the stale
FIFO is instead removed by the next run's `setup_pipe`, lines 234-235). -/
theorem teardown_only_on_normal_exit :
    ∀ (o : Except PyExc Unit) (held : Bool),
      ((program o held).fifoRemoved = true ↔ o = Except.ok ()) ∧
      ((program o held).handleClosed = true ↔ (o = Except.ok () ∧ held = true)) := by
  intro o held
  cases o with
  | ok u =>
    cases u
    cases held <;> simp [program, mainBody, mainCleanup]
  | error e =>
    cases e <;> simp [program, mainBody]

/-- Counterexample to C9 as stated: the loop reads `time.time()` — the
calendar clock — so two runs over the same frames and the same monotonic
instants `0, 1`, differing only in a `+10` system-clock adjustment before
the second cycle, emit different `DROWSY` events: none without the
adjustment (only `1` second elapsed), one with it. -/
theorem calendar_clock_dependence_cex :
    drowsyEvents initState ((calendarTimes [0, 1] [0, 0]).map closedAt) =
      [false, false] ∧
    drowsyEvents initState ((calendarTimes [0, 1] [0, 10]).map closedAt) =
      [false, true] :=
  ⟨by with_unfolding_all decide, by with_unfolding_all decide⟩

/-! ### Clock-shift lemmas -/

lemma shiftSig_confirmed (c : ℚ) (s : SigState) :
    (shiftSig c s).confirmed = s.confirmed := rfl

lemma sigStep_shift (c sustain : ℚ) (cond : Bool) (now : ℚ) (s : SigState) :
    sigStep sustain cond (now + c) (shiftSig c s) =
      (shiftSig c (sigStep sustain cond now s).1,
        (sigStep sustain cond now s).2) := by
  cases cond with
  | false => simp [sigStep, shiftSig, idleSig]
  | true =>
    cases hs : s.start with
    | none => simp [sigStep, shiftSig, hs]
    | some t0 =>
      have harith : now + c - (t0 + c) = now - t0 := by ring
      by_cases h : sustain ≤ now - t0 <;>
        simp [sigStep, shiftSig, hs, harith, h]

lemma should_alert_shift (c now last : ℚ) :
    should_alert (now + c) (last + c) =
      ((should_alert now last).1, (should_alert now last).2 + c) := by
  have harith : now + c - (last + c) = now - last := by ring
  by_cases h : ALERT_COOLDOWN < now - last <;>
    simp [should_alert, harith, h]

lemma loopState_ext (x y : LoopState) (h1 : x.eye = y.eye) (h2 : x.yawn = y.yawn)
    (h3 : x.lastAlert = y.lastAlert) : x = y := by
  cases x; cases y; simp_all

lemma cycleOut_ext (x y : CycleOut) (h1 : x.drowsy = y.drowsy)
    (h2 : x.yawn = y.yawn) (h3 : x.alert = y.alert) : x = y := by
  cases x; cases y; simp_all

lemma loopStep_shift_eye (c : ℚ) (i : Input) (st : LoopState) :
    (loopStep (shiftInput c i) (shiftState c st)).1.eye =
        shiftSig c (loopStep i st).1.eye ∧
      (loopStep (shiftInput c i) (shiftState c st)).2.drowsy =
        (loopStep i st).2.drowsy := by
  have h1 : eye_closed_now (shiftInput c i) = eye_closed_now i := rfl
  have h2 : (shiftInput c i).now = i.now + c := rfl
  have h3 : (shiftState c st).eye = shiftSig c st.eye := rfl
  constructor
  · rw [(loopStep_eye (shiftInput c i) (shiftState c st)).1, (loopStep_eye i st).1,
      h1, h2, h3, sigStep_shift]
  · rw [(loopStep_eye (shiftInput c i) (shiftState c st)).2, (loopStep_eye i st).2,
      h1, h2, h3, sigStep_shift]

lemma loopStep_shift_yawn (c : ℚ) (i : Input) (st : LoopState) :
    (loopStep (shiftInput c i) (shiftState c st)).1.yawn =
        shiftSig c (loopStep i st).1.yawn ∧
      (loopStep (shiftInput c i) (shiftState c st)).2.yawn =
        (loopStep i st).2.yawn := by
  have h1 : mouth_open_now (shiftInput c i) = mouth_open_now i := rfl
  have h2 : (shiftInput c i).now = i.now + c := rfl
  have h3 : (shiftState c st).yawn = shiftSig c st.yawn := rfl
  constructor
  · rw [(loopStep_yawn (shiftInput c i) (shiftState c st)).1, (loopStep_yawn i st).1,
      h1, h2, h3, sigStep_shift]
  · rw [(loopStep_yawn (shiftInput c i) (shiftState c st)).2, (loopStep_yawn i st).2,
      h1, h2, h3, sigStep_shift]

lemma loopStep_shift_alert (c : ℚ) (i : Input) (st : LoopState) :
    (loopStep (shiftInput c i) (shiftState c st)).2.alert =
        (loopStep i st).2.alert ∧
      (loopStep (shiftInput c i) (shiftState c st)).1.lastAlert =
        (loopStep i st).1.lastAlert + c := by
  have hA := loopStep_alert_eq (shiftInput c i) (shiftState c st)
  have hB := loopStep_alert_eq i st
  have han : (shiftInput c i).alertNow = i.alertNow + c := rfl
  have hlast : (shiftState c st).lastAlert = st.lastAlert + c := rfl
  rw [han, hlast, (loopStep_shift_eye c i st).1, (loopStep_shift_yawn c i st).1,
    shiftSig_confirmed, shiftSig_confirmed] at hA
  by_cases hcond : ((loopStep i st).1.eye.confirmed ||
      (loopStep i st).1.yawn.confirmed) = true
  · rw [if_pos hcond, should_alert_shift] at hA
    rw [if_pos hcond] at hB
    have ha1 := congrArg Prod.fst hA
    have ha2 := congrArg Prod.snd hA
    have hb1 := congrArg Prod.fst hB
    have hb2 := congrArg Prod.snd hB
    simp only at ha1 ha2 hb1 hb2
    rw [ha1, ha2, hb1, hb2]
    exact ⟨rfl, rfl⟩
  · rw [if_neg hcond] at hA
    rw [if_neg hcond] at hB
    have ha1 := congrArg Prod.fst hA
    have ha2 := congrArg Prod.snd hA
    have hb1 := congrArg Prod.fst hB
    have hb2 := congrArg Prod.snd hB
    simp only at ha1 ha2 hb1 hb2
    rw [ha1, ha2, hb1, hb2]
    exact ⟨rfl, rfl⟩

/-- A constant clock offset commutes with one loop cycle. -/
lemma loopStep_shift (c : ℚ) (i : Input) (st : LoopState) :
    loopStep (shiftInput c i) (shiftState c st) =
      (shiftState c (loopStep i st).1, (loopStep i st).2) := by
  have he := loopStep_shift_eye c i st
  have hy := loopStep_shift_yawn c i st
  have ha := loopStep_shift_alert c i st
  have h1 : (loopStep (shiftInput c i) (shiftState c st)).1 =
      shiftState c (loopStep i st).1 :=
    loopState_ext _ _ he.1 hy.1 ha.2
  have h2 : (loopStep (shiftInput c i) (shiftState c st)).2 =
      (loopStep i st).2 :=
    cycleOut_ext _ _ he.2 hy.2 ha.1
  exact Prod.ext h1 h2

/-- A constant clock offset leaves every per-cycle output of a run
unchanged. -/
lemma runLoop_shift : ∀ (L : List Input) (c : ℚ) (st : LoopState),
    (runLoop (shiftState c st) (L.map (shiftInput c))).2 = (runLoop st L).2 := by
  intro L
  induction L with
  | nil => intro c st; rfl
  | cons i rest ih =>
    intro c st
    rw [List.map_cons, runLoop_cons, runLoop_cons, loopStep_shift]
    simp only
    rw [ih]

/-- Claim C9 as amended: cycle timestamps come from `time.time()`, the
calendar clock, so sustain timing is **not** immune to system-clock
adjustments (see the counterexample); what does hold is invariance under a
constant offset applied to a whole run: shifting every clock reading and
every stored timestamp by the same `c` leaves all per-cycle outputs —
`DROWSY`/`YAWN` events and alert firings — unchanged. -/
theorem events_invariant_under_constant_offset :
    ∀ (c : ℚ) (st : LoopState) (L : List Input),
      (runLoop (shiftState c st) (L.map (shiftInput c))).2 = (runLoop st L).2 :=
  fun c st L => runLoop_shift L c st
